import Mathlib

/-!
Shallow embedding of `npm-dependency-watcher` (`main.go`) and proofs about
its triage pipeline: cutoff computation, dependents fetch, the
early-terminating walk with scoped-package exclusion, and the scanner
dispatch loop.

Conventions of the embedding:
* Go `int64` values are modelled as `Int`; where the source performs
  `int64` arithmetic whose overflow behaviour is observable
  (the cutoff computation in `main`), the wrap-around is made explicit
  with `wrap64`.
* Network effects are modelled by passing the environment's response as
  data: a fetch response is a `FetchResponse`, the scanner's behaviour is
  a function `String → Option ScannerResponse` (`none` = transport
  failure of `http.Client.Do`).
* Functions that return Go `error` are modelled as returning an
  `Option`/`Except` error value.
-/

namespace NpmWatch

/-- Mirrors struct `Publisher` (main.go lines 40-43).  The Go field
`Avatars map[string]interface{}` holds arbitrary JSON that the pipeline
never inspects; its entries are modelled as string pairs. -/
structure Publisher where
  name : String
  avatars : List (String × String)
deriving DecidableEq, Repr

/-- Mirrors struct `Date` (main.go lines 45-48); `ts` is the publish
timestamp in milliseconds (Go `int64`). -/
structure Date where
  ts : Int
  rel : String
deriving DecidableEq, Repr

/-- Mirrors struct `Package` (main.go lines 26-34). -/
structure Package where
  name : String
  description : String
  maintainers : List String
  publisher : Publisher
  date : Date
  version : String
deriving DecidableEq, Repr

/-- Mirrors method `Package.IsScoped` (main.go lines 36-38):
`strings.HasPrefix(p.Name, "@")`, i.e. the name's first character is
`@`.  Stated on the character list so that it evaluates by kernel
reduction (`String.startsWith` is defined by well-founded recursion). -/
def Package.IsScoped (p : Package) : Bool :=
  match p.name.data with
  | [] => false
  | c :: _ => c = '@'

/-- Mirrors struct `Data` (main.go lines 50-54), the decoded body of the
dependents-listing response. -/
structure Data where
  title : String
  dependency : String
  packages : List Package
deriving DecidableEq, Repr

/-- Mirrors struct `Config` (main.go lines 19-24) minus the `*http.Client`
handle, which carries no pipeline-relevant data. -/
structure Config where
  apiKey : String
  intervalHrs : String
  target : String
deriving DecidableEq, Repr

/-- The environment's answer to the scanner request in `sendToScanner`:
the final status code `res.StatusCode` and the final request path
`res.Request.URL.Path` after any redirects. -/
structure ScannerResponse where
  statusCode : Nat
  finalPath : String
deriving DecidableEq, Repr

/-- Outcome of one `sendToScanner` call (main.go lines 56-76): `nil`
return is `success`, the three error returns are the failure cases. -/
inductive ScanOutcome where
  | success
  | transport
  | unexpectedStatus (code : Nat)
  | authRedirect
deriving DecidableEq, Repr

/-- Mirrors `sendToScanner` (main.go lines 56-76).  The argument is the
environment's response; `none` models `c.Client.Do` returning an error
(transport failure).  The request-construction error of
`http.NewRequest` is unreachable for a parseable URL and is not
modelled.  Note the source checks `res.StatusCode != http.StatusOK`
before it checks `res.Request.URL.Path == "/login"`. -/
def sendToScanner (resp : Option ScannerResponse) : ScanOutcome :=
  match resp with
  | none => .transport
  | some r =>
    if r.statusCode ≠ 200 then .unexpectedStatus r.statusCode
    else if r.finalPath = "/login" then .authRedirect
    else .success

/-- The failure cases of the dependents fetch, i.e. the error returns of
`triageDependencies` before its loop (main.go lines 87-104). -/
inductive FetchError where
  | transport
  | unexpectedStatus (code : Nat)
  | decode
  | mismatch (got : String)
  | empty
deriving DecidableEq, Repr

/-- The environment's answer to the dependents request in
`triageDependencies`: `transportErr` models `c.Client.Do` failing;
otherwise a status code and the decoded body (`none` models a body
that `json.Decode` rejects). -/
inductive FetchResponse where
  | transportErr
  | status (code : Nat) (body : Option Data)
deriving DecidableEq, Repr

/-- An error ending one triage cycle: a fetch error, or the error of the
first failing dispatch (carrying the package name, as the wrapped
errors in `sendToScanner` do). -/
inductive CycleError where
  | fetch (e : FetchError)
  | scan (name : String) (outcome : ScanOutcome)
deriving DecidableEq, Repr

/-- The selection semantics of the loop in `triageDependencies`
(main.go lines 106-119) with the dispatch abstracted away: walk the
list in order, `break` at the first package with `p.Date.TS < cutoff`,
`continue` past scoped packages, keep the rest.  The spec calls this
`selectForScan`. -/
def selectForScan (packages : List Package) (cutoff : Int) : List Package :=
  match packages with
  | [] => []
  | p :: rest =>
    if p.date.ts < cutoff then []
    else if p.IsScoped then selectForScan rest cutoff
    else p :: selectForScan rest cutoff

/-- The loop of `triageDependencies` (main.go lines 106-119) in full:
walk the packages, dispatch each kept one via `sendToScanner`, return
the error of the first failing dispatch.  Result: the names dispatched
(in order) and `none` for the `nil` return or the first dispatch
error. -/
def walkLoop (scan : String → Option ScannerResponse) (cutoff : Int) :
    List Package → List String × Option CycleError
  | [] => ([], none)
  | p :: rest =>
    if p.date.ts < cutoff then ([], none)
    else if p.IsScoped then walkLoop scan cutoff rest
    else
      match sendToScanner (scan p.name) with
      | .success =>
        let r := walkLoop scan cutoff rest
        (p.name :: r.1, r.2)
      | o => ([p.name], some (.scan p.name o))

/-- Dispatching a selected name sequence one at a time, stopping at the
first failure: `walkLoop` restricted to an already-selected list of
names (the two coincide, see `walkLoop_eq_dispatchAll`). -/
def dispatchAll (scan : String → Option ScannerResponse) :
    List String → List String × Option CycleError
  | [] => ([], none)
  | n :: rest =>
    match sendToScanner (scan n) with
    | .success =>
      let r := dispatchAll scan rest
      (n :: r.1, r.2)
    | o => ([n], some (.scan n o))

/-- Mirrors `triageDependencies` (main.go lines 78-121): the fetch
checks in source order (transport, status, decode, dependency
mismatch, empty package list), then the walk-and-dispatch loop.
Result: dispatched names and `none` (the `nil` return, cycle `Done`)
or the error that ended the cycle (`Failed`). -/
def triageDependencies (target : String) (resp : FetchResponse)
    (scan : String → Option ScannerResponse) (cutoff : Int) :
    List String × Option CycleError :=
  match resp with
  | .transportErr => ([], some (.fetch .transport))
  | .status code body =>
    if code ≠ 200 then ([], some (.fetch (.unexpectedStatus code)))
    else
      match body with
      | none => ([], some (.fetch .decode))
      | some d =>
        if d.dependency ≠ target then ([], some (.fetch (.mismatch d.dependency)))
        else if d.packages.length = 0 then ([], some (.fetch .empty))
        else walkLoop scan cutoff d.packages

/-- The fetch stage of `triageDependencies` (main.go lines 87-104)
factored out, as the spec's `fetchDependents`: same checks in the same
order, returning the decoded package list on success. -/
def fetchDependents (target : String) (resp : FetchResponse) :
    Except FetchError (List Package) :=
  match resp with
  | .transportErr => .error .transport
  | .status code body =>
    if code ≠ 200 then .error (.unexpectedStatus code)
    else
      match body with
      | none => .error .decode
      | some d =>
        if d.dependency ≠ target then .error (.mismatch d.dependency)
        else if d.packages.length = 0 then .error .empty
        else .ok d.packages

/-- Two's-complement wrap of an unbounded integer into the `int64`
range, the semantics of Go `int64` arithmetic. -/
def wrap64 (x : Int) : Int :=
  (x + 2 ^ 63) % 2 ^ 64 - 2 ^ 63

/-- Mirrors the cutoff computation in `main` (main.go lines 182-183):
`cutoff := now - time.Hour.Milliseconds()*interval` with
`time.Hour.Milliseconds() = 3600000`, in Go `int64` arithmetic. -/
def computeCutoff (now interval : Int) : Int :=
  wrap64 (now - wrap64 (3600000 * interval))

/-- Mirrors the validation in `LoadConfig` (main.go lines 123-149).
The argument is the result of reading and unmarshalling the config
file: `none` if either step failed; the three emptiness checks follow
in source order. -/
def LoadConfig (read : Option Config) : Except String Config :=
  match read with
  | none => .error "reading config"
  | some config =>
    if config.apiKey = "" then .error "apikey not set"
    else if config.intervalHrs = "" then .error "interval not set"
    else if config.target = "" then .error "target not set"
    else .ok config

/-- Value of a decimal digit character, `none` otherwise. -/
def digitVal (c : Char) : Option Nat :=
  if '0' ≤ c ∧ c ≤ '9' then some (c.toNat - '0'.toNat) else none

/-- Accumulate decimal digits; `none` on any non-digit. -/
def parseDigitsAux : List Char → Nat → Option Nat
  | [], acc => some acc
  | c :: rest, acc =>
    match digitVal c with
    | none => none
    | some d => parseDigitsAux rest (acc * 10 + d)

/-- Parse a non-empty all-digit character list to its value. -/
def parseDigits : List Char → Option Nat
  | [] => none
  | l => parseDigitsAux l 0

/-- Models `strconv.ParseInt(s, 10, 64)` as used in `main`
(main.go line 163): optional sign, decimal digits, result within the
`int64` range; `none` on any syntax or range error. -/
def parseInt64 (s : String) : Option Int :=
  match s.data with
  | [] => none
  | c :: rest =>
    let signed : Bool × List Char :=
      if c = '-' then (true, rest)
      else if c = '+' then (false, rest)
      else (false, c :: rest)
    match parseDigits signed.2 with
    | none => none
    | some n =>
      if signed.1 then
        if n ≤ 2 ^ 63 then some (-(n : Int)) else none
      else
        if n < 2 ^ 63 then some (n : Int) else none

/-- Concrete package of the spec's walk scenario: scoped name, above the
cutoff 60. -/
def pkgScopedA : Package := ⟨"@scope/a", "", [], ⟨"", []⟩, ⟨100, ""⟩, ""⟩

/-- Concrete package of the spec's walk scenario: unscoped, timestamp 90. -/
def pkgB : Package := ⟨"b", "", [], ⟨"", []⟩, ⟨90, ""⟩, ""⟩

/-- Concrete package of the spec's walk scenario: unscoped, timestamp 50. -/
def pkgC : Package := ⟨"c", "", [], ⟨"", []⟩, ⟨50, ""⟩, ""⟩

/-- Concrete scoped package with a timestamp below cutoff 60. -/
def pkgScopedOld : Package := ⟨"@old/x", "", [], ⟨"", []⟩, ⟨10, ""⟩, ""⟩

/-- Concrete unscoped package with timestamp 0 ("published now"). -/
def pkgFresh : Package := ⟨"fresh", "", [], ⟨"", []⟩, ⟨0, ""⟩, ""⟩

/-- A scanner environment answering every request with 200 at a
non-login path. -/
def scanOK : String → Option ScannerResponse := fun _ => some ⟨200, "/api"⟩

/-- A scanner environment whose transport fails exactly on package
"y". -/
def scanFailY : String → Option ScannerResponse :=
  fun n => if n = "y" then none else some ⟨200, "/api"⟩

/-! Helper lemmas shared by the claim theorems. -/

/-- The interleaved walk-and-dispatch loop equals dispatching the
selected names in order: selection does not depend on dispatch
results. -/
theorem walkLoop_eq_dispatchAll (scan : String → Option ScannerResponse)
    (cutoff : Int) (ps : List Package) :
    walkLoop scan cutoff ps =
      dispatchAll scan ((selectForScan ps cutoff).map Package.name) := by
  induction ps with
  | nil => simp [walkLoop, selectForScan, dispatchAll]
  | cons p rest ih =>
    by_cases hts : p.date.ts < cutoff
    · simp [walkLoop, selectForScan, hts, dispatchAll]
    · cases hsc : p.IsScoped
      · cases hscan : sendToScanner (scan p.name) <;>
          simp [walkLoop, selectForScan, hts, hsc, dispatchAll, hscan, ih]
      · simp [walkLoop, selectForScan, hts, hsc, ih]

/-- Dispatching a name list succeeds iff every name's dispatch
succeeds. -/
theorem dispatchAll_ok_iff (scan : String → Option ScannerResponse)
    (sel : List String) :
    (dispatchAll scan sel).2 = none ↔
      ∀ n ∈ sel, sendToScanner (scan n) = .success := by
  induction sel with
  | nil => simp [dispatchAll]
  | cons n rest ih =>
    cases hscan : sendToScanner (scan n) <;> simp [dispatchAll, hscan, ih]

/-- On overall success every name was attempted, in order. -/
theorem dispatchAll_ok_attempted (scan : String → Option ScannerResponse)
    (sel : List String) (hok : (dispatchAll scan sel).2 = none) :
    (dispatchAll scan sel).1 = sel := by
  induction sel with
  | nil => simp [dispatchAll]
  | cons n rest ih =>
    cases hscan : sendToScanner (scan n) <;>
      simp_all [dispatchAll, hscan]

/-- The first failing dispatch ends the run: the attempts are exactly
the successful ones before it plus the failing one, and its error is
reported. -/
theorem dispatchAll_first_failure (scan : String → Option ScannerResponse)
    (xs zs : List String) (y : String)
    (hxs : ∀ n ∈ xs, sendToScanner (scan n) = .success)
    (hy : sendToScanner (scan y) ≠ .success) :
    dispatchAll scan (xs ++ y :: zs) =
      (xs ++ [y], some (.scan y (sendToScanner (scan y)))) := by
  induction xs with
  | nil =>
    cases hscan : sendToScanner (scan y) <;> simp_all [dispatchAll]
  | cons x xs ih =>
    have hx : sendToScanner (scan x) = .success := hxs x (by simp)
    have hrest : ∀ n ∈ xs, sendToScanner (scan n) = .success :=
      fun n hn => hxs n (by simp [hn])
    simp [dispatchAll, hx, ih hrest]

/-- Every attempted name comes from the dispatched list. -/
theorem dispatchAll_mem (scan : String → Option ScannerResponse)
    (sel : List String) (n : String) (hn : n ∈ (dispatchAll scan sel).1) :
    n ∈ sel := by
  induction sel with
  | nil => simp_all [dispatchAll]
  | cons m rest ih =>
    cases hscan : sendToScanner (scan m) <;>
      (simp_all [dispatchAll, hscan]; try tauto)

/-- Every selected package is at or above the cutoff and unscoped. -/
theorem selectForScan_mem (cutoff : Int) (ps : List Package) (q : Package)
    (hq : q ∈ selectForScan ps cutoff) :
    cutoff ≤ q.date.ts ∧ q.IsScoped = false := by
  induction ps with
  | nil => simp [selectForScan] at hq
  | cons p rest ih =>
    by_cases hts : p.date.ts < cutoff
    · simp [selectForScan, hts] at hq
    · cases hsc : p.IsScoped
      · simp [selectForScan, hts, hsc] at hq
        rcases hq with rfl | hq
        · exact ⟨le_of_not_lt hts, hsc⟩
        · exact ih hq
      · simp [selectForScan, hts, hsc] at hq
        exact ih hq

/-- `wrap64` is the identity on the `int64` range. -/
theorem wrap64_eq_self {x : Int} (h1 : -(2 ^ 63) ≤ x) (h2 : x < 2 ^ 63) :
    wrap64 x = x := by
  unfold wrap64
  have hnn : 0 ≤ x + 2 ^ 63 := by linarith
  have hlt : x + 2 ^ 63 < 2 ^ 64 := by
    have h64 : (2 : Int) ^ 64 = 2 ^ 63 + 2 ^ 63 := by norm_num
    linarith
  rw [Int.emod_eq_of_lt hnn hlt]
  ring

/-- `triageDependencies` is the fetch stage followed by the loop: a
fetch error aborts with no dispatches, success hands the decoded
packages to the walk. -/
theorem triage_decompose (target : String) (resp : FetchResponse)
    (scan : String → Option ScannerResponse) (cutoff : Int) :
    triageDependencies target resp scan cutoff =
      (match fetchDependents target resp with
       | .error e => ([], some (.fetch e))
       | .ok pkgs => walkLoop scan cutoff pkgs) := by
  cases resp with
  | transportErr => rfl
  | status code body =>
    by_cases hc : code = 200
    · cases body with
      | none => simp [triageDependencies, fetchDependents, hc]
      | some d =>
        by_cases hd : d.dependency = target
        · by_cases hp : d.packages.length = 0 <;>
            simp [triageDependencies, fetchDependents, hc, hd, hp]
        · simp [triageDependencies, fetchDependents, hc, hd]
    · simp [triageDependencies, fetchDependents, hc]


/-- C1: the triage walk returns exactly the result of scanning in input
order, stopping permanently at the first record whose timestamp is
strictly below the cutoff and dropping the scoped (`@`-prefixed)
names, with input order preserved — i.e. it is the filter of the
above-cutoff prefix; and on the spec's scenario
`[@scope/a ts 100, b ts 90, c ts 50]` with cutoff 60 the selection is
exactly `["b"]`. -/
theorem selectForScan_spec :
    (∀ (ps : List Package) (cutoff : Int),
      selectForScan ps cutoff =
        (ps.takeWhile fun p => decide (cutoff ≤ p.date.ts)).filter
          (fun p => !p.IsScoped)) ∧
    (selectForScan [pkgScopedA, pkgB, pkgC] 60).map Package.name = ["b"] := by
  constructor
  · intro ps cutoff
    induction ps with
    | nil => simp [selectForScan]
    | cons p rest ih =>
      by_cases hts : p.date.ts < cutoff
      · have hnle : ¬ cutoff ≤ p.date.ts := not_le.mpr hts
        simp [selectForScan, hts, List.takeWhile_cons, hnle]
      · have hle : cutoff ≤ p.date.ts := not_lt.mp hts
        cases hsc : p.IsScoped <;>
          simp [selectForScan, hts, hsc, List.takeWhile_cons, hle,
            List.filter_cons, ih]
  · decide

/-- C4: when the record at position k is strictly below the cutoff, the
walk's output is already determined by the records before position k —
no record at a position greater than k is included, even one whose
timestamp is at or above the cutoff. -/
theorem selectForScan_early_exit (ps : List Package) (cutoff : Int) (k : Nat)
    (hk : k < ps.length) (hts : (ps.get ⟨k, hk⟩).date.ts < cutoff) :
    selectForScan ps cutoff = selectForScan (ps.take k) cutoff := by
  induction ps generalizing k with
  | nil => simp at hk
  | cons p rest ih =>
    cases k with
    | zero =>
      simp only [List.get] at hts
      simp [selectForScan, hts, List.take]
    | succ k =>
      have hk2 : k < rest.length := by simpa using hk
      have hts2 : (rest.get ⟨k, hk2⟩).date.ts < cutoff := by simpa using hts
      by_cases hp : p.date.ts < cutoff
      · simp [selectForScan, hp, List.take]
      · cases hsc : p.IsScoped <;>
          simp [selectForScan, hp, hsc, List.take, ih k hk2 hts2]

/-- C4 (witness): on `[c ts 50, b ts 90]` with cutoff 60 the record at
position 0 is below the cutoff, so nothing is selected although the
record at position 1 is above the cutoff. -/
theorem selectForScan_early_exit_witness :
    selectForScan [pkgC, pkgB] 60 = [] := by
  have h := selectForScan_early_exit [pkgC, pkgB] 60 0 (by decide) (by decide)
  simpa [selectForScan] using h


/-- C2 (counterexample): a dispatch whose response ends at the login
path but carries a non-OK status is classified as the generic
unexpected-status failure, not as the auth redirect — the status
check fires first in `sendToScanner`. -/
theorem sendToScanner_login_cex :
    sendToScanner (some ⟨500, "/login"⟩) = .unexpectedStatus 500 ∧
    sendToScanner (some ⟨500, "/login"⟩) ≠ .authRedirect := by decide

/-- C2 (amended): a dispatch whose response ends at the login path is
classified `authRedirect` — and never `unexpectedStatus` — when the
response status is OK (200); with any other status the status check
fires first and the outcome is `unexpectedStatus` with that code. -/
theorem sendToScanner_authRedirect (r : ScannerResponse)
    (hpath : r.finalPath = "/login") :
    (r.statusCode = 200 → sendToScanner (some r) = .authRedirect) ∧
    (r.statusCode ≠ 200 →
      sendToScanner (some r) = .unexpectedStatus r.statusCode) := by
  constructor <;> intro h <;> simp [sendToScanner, h, hpath]

/-- C2 (witness): a 200 response at the login path is classified as the
auth redirect. -/
theorem sendToScanner_authRedirect_witness :
    sendToScanner (some ⟨200, "/login"⟩) = .authRedirect :=
  (sendToScanner_authRedirect ⟨200, "/login"⟩ rfl).1 rfl

/-- C3: the cycle dispatches the selected packages one at a time in
selection order — the interleaved source loop equals dispatching the
selected names; the cycle ends `Done` (no error) iff every selected
dispatch succeeds (in particular for an empty selection), in which
case exactly the selected names were attempted; and the first failing
dispatch ends the cycle `Failed` with that error, the attempts being
exactly the successful earlier names plus the failing one — nothing
after it is attempted. -/
theorem cycle_failfast (scan : String → Option ScannerResponse) (cutoff : Int)
    (ps : List Package) :
    walkLoop scan cutoff ps =
      dispatchAll scan ((selectForScan ps cutoff).map Package.name) ∧
    (∀ sel : List String,
      ((dispatchAll scan sel).2 = none ↔
        ∀ n ∈ sel, sendToScanner (scan n) = .success) ∧
      ((dispatchAll scan sel).2 = none → (dispatchAll scan sel).1 = sel) ∧
      (∀ (xs zs : List String) (y : String),
        (∀ n ∈ xs, sendToScanner (scan n) = .success) →
        sendToScanner (scan y) ≠ .success →
        dispatchAll scan (xs ++ y :: zs) =
          (xs ++ [y], some (.scan y (sendToScanner (scan y)))))) :=
  ⟨walkLoop_eq_dispatchAll scan cutoff ps,
   fun sel =>
     ⟨dispatchAll_ok_iff scan sel,
      fun hok => dispatchAll_ok_attempted scan sel hok,
      fun xs zs y hxs hy => dispatchAll_first_failure scan xs zs y hxs hy⟩⟩

/-- C3 (witness): on selected names `[x, y, z]` where y's dispatch
fails in transport, x and y are attempted, z is never attempted, and
the cycle fails with y's transport error. -/
theorem cycle_failfast_witness :
    dispatchAll scanFailY ["x", "y", "z"] =
      (["x", "y"], some (.scan "y" ScanOutcome.transport)) := by
  have h := ((cycle_failfast scanFailY 0 []).2 ["x", "y", "z"]).2.2
    ["x"] ["z"] "y" (by decide) (by decide)
  simpa [scanFailY, sendToScanner] using h

/-- C5 (counterexample): the cutoff computation is Go `int64`
arithmetic, which wraps: at now = 0 and lookback 2562047788016 hours
the result differs from now − h·3,600,000, and it is larger — not
smaller — than the result one hour earlier, so exactness and strict
decrease both fail for large lookbacks. -/
theorem computeCutoff_cex :
    computeCutoff 0 2562047788016 ≠ 0 - 3600000 * 2562047788016 ∧
    ¬ computeCutoff 0 2562047788016 < computeCutoff 0 2562047788015 := by
  decide

/-- C5 (amended): for every int64 timestamp now,
computeCutoff(now, 0) = now; and for every non-negative h such that
h·3,600,000 and now − h·3,600,000 stay within the int64 range, the
computation returns exactly now − h·3,600,000 with no error path, and
strictly decreases from h to h+1 whenever h+1 also stays in range. -/
theorem computeCutoff_spec (now h : Int)
    (hn1 : -(2 ^ 63) ≤ now) (hn2 : now < 2 ^ 63) (hh : 0 ≤ h) :
    computeCutoff now 0 = now ∧
    (3600000 * h < 2 ^ 63 → -(2 ^ 63) ≤ now - 3600000 * h →
      computeCutoff now h = now - 3600000 * h) ∧
    (3600000 * (h + 1) < 2 ^ 63 → -(2 ^ 63) ≤ now - 3600000 * (h + 1) →
      computeCutoff now (h + 1) < computeCutoff now h) := by
  have hexact : ∀ g : Int, 0 ≤ g → 3600000 * g < 2 ^ 63 →
      -(2 ^ 63) ≤ now - 3600000 * g →
      computeCutoff now g = now - 3600000 * g := by
    intro g hg hgl hgd
    have hgnn : 0 ≤ 3600000 * g := by positivity
    have h1 : wrap64 (3600000 * g) = 3600000 * g :=
      wrap64_eq_self (by linarith [hgnn]) hgl
    have h2 : wrap64 (now - 3600000 * g) = now - 3600000 * g :=
      wrap64_eq_self hgd (by linarith)
    unfold computeCutoff
    rw [h1, h2]
  refine ⟨?_, hexact h hh, ?_⟩
  · have h0 : wrap64 (3600000 * 0) = 0 := by
      unfold wrap64
      norm_num
    unfold computeCutoff
    rw [h0, sub_zero, wrap64_eq_self hn1 hn2]
  · intro hl hd
    have hexp : 3600000 * (h + 1) = 3600000 * h + 3600000 := by ring
    have hl2 : 3600000 * h < 2 ^ 63 := by linarith
    have hd2 : -(2 ^ 63) ≤ now - 3600000 * h := by linarith
    rw [hexact (h + 1) (by linarith) hl hd, hexact h hh hl2 hd2]
    linarith

/-- C5 (witness): at now = 1,700,000,000,000 the cutoff equals now for
lookback 0, equals now − 2·3,600,000 for lookback 2, and strictly
decreases from lookback 2 to 3. -/
theorem computeCutoff_spec_witness :
    computeCutoff 1700000000000 0 = 1700000000000 ∧
    computeCutoff 1700000000000 2 = 1700000000000 - 3600000 * 2 ∧
    computeCutoff 1700000000000 (2 + 1) < computeCutoff 1700000000000 2 := by
  have h := computeCutoff_spec 1700000000000 2 (by decide) (by decide) (by decide)
  exact ⟨h.1, h.2.1 (by decide) (by decide), h.2.2 (by decide) (by decide)⟩


/-- C6: after a decoded fetch response, a dependency/target mismatch
always ends the cycle with the mismatch error — whatever the package
list — and a matching dependency with an empty package list always
ends it with the empty error; in both cases nothing is dispatched. -/
theorem triage_mismatch_empty (target : String) (d : Data)
    (scan : String → Option ScannerResponse) (cutoff : Int) :
    (d.dependency ≠ target →
      triageDependencies target (.status 200 (some d)) scan cutoff =
        ([], some (.fetch (.mismatch d.dependency)))) ∧
    (d.dependency = target → d.packages = [] →
      triageDependencies target (.status 200 (some d)) scan cutoff =
        ([], some (.fetch .empty))) := by
  constructor
  · intro hne
    simp [triageDependencies, hne]
  · intro heq hemp
    simp [triageDependencies, heq, hemp]

/-- C6 (witness): a response answering for "other" instead of
"left-pad" is rejected with the mismatch error despite a non-empty
package list, and an empty matching response is rejected with the
empty error; neither dispatches anything. -/
theorem triage_mismatch_empty_witness :
    triageDependencies "left-pad" (.status 200 (some ⟨"", "other", [pkgB]⟩))
        scanOK 0 =
      ([], some (.fetch (.mismatch "other"))) ∧
    triageDependencies "left-pad" (.status 200 (some ⟨"", "left-pad", []⟩))
        scanOK 0 =
      ([], some (.fetch .empty)) :=
  ⟨(triage_mismatch_empty "left-pad" ⟨"", "other", [pkgB]⟩ scanOK 0).1
     (by decide),
   (triage_mismatch_empty "left-pad" ⟨"", "left-pad", []⟩ scanOK 0).2 rfl rfl⟩

/-- C7: the dependents fetch fails in exactly five cases — transport
failure, a status other than 200 (reported with the code), an
undecodable body, a decoded dependency differing from the requested
target, and an empty package list — and on success it returns
precisely the decoded package sequence as received, unreordered. -/
theorem fetchDependents_spec (target : String) (resp : FetchResponse) :
    (∀ pkgs : List Package,
      fetchDependents target resp = .ok pkgs ↔
        (∃ t, resp = .status 200 (some ⟨t, target, pkgs⟩)) ∧ pkgs ≠ []) ∧
    (fetchDependents target resp = .error .transport ↔
      resp = .transportErr) ∧
    (∀ code, fetchDependents target resp = .error (.unexpectedStatus code) ↔
      (∃ body, resp = .status code body) ∧ code ≠ 200) ∧
    (fetchDependents target resp = .error .decode ↔
      resp = .status 200 none) ∧
    (∀ got, fetchDependents target resp = .error (.mismatch got) ↔
      got ≠ target ∧ ∃ t pk, resp = .status 200 (some ⟨t, got, pk⟩)) ∧
    (fetchDependents target resp = .error .empty ↔
      ∃ t, resp = .status 200 (some ⟨t, target, []⟩)) := by
  rcases resp with _ | ⟨code, _ | ⟨dt, dd, dp⟩⟩
  · simp [fetchDependents]
  · by_cases hc : code = 200
    · subst hc
      simp [fetchDependents]
    · refine ⟨?_, ?_, ?_, ?_, ?_, ?_⟩
      · intro pkgs
        simp [fetchDependents, hc]
      · simp [fetchDependents, hc]
      · intro code2
        simp only [fetchDependents, if_pos hc]
        constructor
        · intro h
          obtain ⟨rfl⟩ : code = code2 := by
            simpa using h
          exact ⟨⟨none, rfl⟩, hc⟩
        · rintro ⟨⟨b, hb⟩, h200⟩
          obtain ⟨rfl, rfl⟩ : code = code2 ∧ (none : Option Data) = b := by
            simpa using hb
          rfl
      · simp [fetchDependents, hc]
      · intro got
        simp [fetchDependents, hc]
      · simp [fetchDependents, hc]
  · by_cases hc : code = 200
    · subst hc
      by_cases hd : dd = target
      · subst hd
        by_cases hp : dp = []
        · subst hp
          refine ⟨?_, ?_, ?_, ?_, ?_, ?_⟩
          · intro pkgs
            simp [fetchDependents]
          · simp [fetchDependents]
          · intro code2
            simp [fetchDependents]
            rintro rfl
            simp
          · simp [fetchDependents]
          · intro got
            simp [fetchDependents]
            intro h1 h2
            exact h1 h2.symm
          · simp [fetchDependents]
        · have hlen : ¬ dp.length = 0 := by
            simpa [List.length_eq_zero] using hp
          refine ⟨?_, ?_, ?_, ?_, ?_, ?_⟩
          · intro pkgs
            simp only [fetchDependents, ne_eq, not_true_eq_false,
              if_false, if_neg hlen]
            constructor
            · intro h
              obtain rfl : dp = pkgs := by simpa using h
              exact ⟨⟨dt, rfl⟩, hp⟩
            · rintro ⟨⟨t, ht⟩, hne⟩
              obtain ⟨rfl, rfl⟩ : dt = t ∧ dp = pkgs := by simpa using ht
              rfl
          · simp [fetchDependents, hlen]
          · intro code2
            simp [fetchDependents, hlen]
            rintro rfl
            simp
          · simp [fetchDependents, hlen]
          · intro got
            simp [fetchDependents, hlen]
            intro h1 h2
            exact h1 h2.symm
          · simp [fetchDependents, hlen]
            exact fun h => hp h
      · refine ⟨?_, ?_, ?_, ?_, ?_, ?_⟩
        · intro pkgs
          simp [fetchDependents, hd]
        · simp [fetchDependents, hd]
        · intro code2
          simp [fetchDependents, hd]
          rintro rfl
          simp
        · simp [fetchDependents, hd]
        · intro got
          simp only [fetchDependents, ne_eq, if_neg (by simpa using hd),
            if_pos (by simpa using hd)]
          constructor
          · intro h
            obtain rfl : dd = got := by simpa using h
            exact ⟨hd, dt, dp, rfl⟩
          · rintro ⟨hgt, t, pk, hmk⟩
            obtain ⟨rfl, rfl, rfl⟩ : dt = t ∧ dd = got ∧ dp = pk := by
              simpa using hmk
            rfl
        · simp [fetchDependents, hd]
    · refine ⟨?_, ?_, ?_, ?_, ?_, ?_⟩
      · intro pkgs
        simp [fetchDependents, hc]
      · simp [fetchDependents, hc]
      · intro code2
        simp only [fetchDependents, if_pos hc]
        constructor
        · intro h
          obtain ⟨rfl⟩ : code = code2 := by simpa using h
          exact ⟨⟨some ⟨dt, dd, dp⟩, rfl⟩, hc⟩
        · rintro ⟨⟨b, hb⟩, h200⟩
          obtain ⟨rfl, -⟩ : code = code2 ∧ (some (Data.mk dt dd dp) : Option Data) = b := by
            simpa using hb
          rfl
      · simp [fetchDependents, hc]
      · intro got
        simp [fetchDependents, hc]
      · simp [fetchDependents, hc]

/-- C7 (witness): a transport failure is reported as the transport
fetch error. -/
theorem fetchDependents_spec_witness :
    fetchDependents "a" .transportErr = .error .transport :=
  ((fetchDependents_spec "a" .transportErr).2.1).mpr rfl


/-- C8: whenever the fetch stage fails with any fetch error, the cycle
ends with exactly that error and performs zero scanner dispatches —
no partial results are used. -/
theorem fetch_error_aborts (target : String) (resp : FetchResponse)
    (scan : String → Option ScannerResponse) (cutoff : Int) (e : FetchError)
    (hfail : fetchDependents target resp = .error e) :
    triageDependencies target resp scan cutoff = ([], some (.fetch e)) := by
  rw [triage_decompose, hfail]

/-- C8 (witness): a transport failure of the fetch ends the cycle with
the transport fetch error and no dispatches. -/
theorem fetch_error_aborts_witness :
    triageDependencies "a" .transportErr scanOK 0 =
      ([], some (.fetch .transport)) :=
  fetch_error_aborts "a" .transportErr scanOK 0 .transport rfl

/-- C9: the cutoff comparison precedes the scoped-name check — a record
strictly below the cutoff ends the walk even when its name is
`@`-prefixed; every selected record is at or above the cutoff and
unscoped; and every dispatched name is the name of a selected,
unscoped record, so no scoped name is ever dispatched. -/
theorem cutoff_check_precedes_scope (cutoff : Int) :
    (∀ (p : Package) (rest : List Package), p.date.ts < cutoff →
      selectForScan (p :: rest) cutoff = []) ∧
    (∀ (ps : List Package) (q : Package), q ∈ selectForScan ps cutoff →
      cutoff ≤ q.date.ts ∧ q.IsScoped = false) ∧
    (∀ (scan : String → Option ScannerResponse) (ps : List Package)
        (n : String), n ∈ (walkLoop scan cutoff ps).1 →
      ∃ q, q ∈ selectForScan ps cutoff ∧ q.name = n ∧ q.IsScoped = false) := by
  refine ⟨?_, fun ps q hq => selectForScan_mem cutoff ps q hq, ?_⟩
  · intro p rest h
    simp [selectForScan, h]
  · intro scan ps n hn
    rw [walkLoop_eq_dispatchAll] at hn
    have hmem := dispatchAll_mem scan _ n hn
    rcases List.mem_map.mp hmem with ⟨q, hq, rfl⟩
    exact ⟨q, hq, rfl, (selectForScan_mem cutoff ps q hq).2⟩

/-- C9 (witness): a scoped record below the cutoff terminates the walk:
on `[@old/x ts 10, b ts 90]` with cutoff 60 nothing is selected, the
unscoped record after it included. -/
theorem cutoff_check_precedes_scope_witness :
    selectForScan [pkgScopedOld, pkgB] 60 = [] :=
  (cutoff_check_precedes_scope 60).1 pkgScopedOld [pkgB] (by decide)

/-- C10 (counterexample): the cutoff computation is int64 arithmetic,
so for a hugely negative (but parseable) lookback it wraps: at now = 0
and h = −2562047788016 the cutoff is below now, and a first record
with timestamp 0 ≤ now is selected rather than terminating the walk
with an empty selection. -/
theorem negative_lookback_cex :
    ¬ (0 : Int) < computeCutoff 0 (-2562047788016) ∧
    pkgFresh.date.ts ≤ 0 ∧
    selectForScan [pkgFresh] (computeCutoff 0 (-2562047788016)) = [pkgFresh] ∧
    parseInt64 "-2562047788016" = some (-2562047788016) := by
  decide

/-- C10 (amended): config validation of the interval checks only that
the string is non-empty (with the other fields non-empty, acceptance
is exactly non-emptiness of the interval); startup parsing accepts
negative integers; for every negative lookback h whose scaled value
and resulting cutoff stay within the int64 range, the computed cutoff
is strictly greater than now; and whenever the cutoff exceeds now,
any fetched list whose first record's timestamp is at most now yields
an empty selection, no dispatch, and a cycle ending `Done`. -/
theorem negative_lookback_spec :
    (∀ cfg : Config, cfg.apiKey ≠ "" → cfg.target ≠ "" →
      (LoadConfig (some cfg) = .ok cfg ↔ cfg.intervalHrs ≠ "")) ∧
    parseInt64 "-5" = some (-5) ∧
    (∀ now h : Int, h < 0 → -(2 ^ 63) ≤ now → now < 2 ^ 63 →
      3600000 * (-h) < 2 ^ 63 → now - 3600000 * h < 2 ^ 63 →
      now < computeCutoff now h) ∧
    (∀ (cutoff now : Int) (p : Package) (rest : List Package)
        (scan : String → Option ScannerResponse),
      now < cutoff → p.date.ts ≤ now →
      selectForScan (p :: rest) cutoff = [] ∧
      walkLoop scan cutoff (p :: rest) = ([], none)) := by
  refine ⟨?_, by decide, ?_, ?_⟩
  · intro cfg hk ht
    by_cases hi : cfg.intervalHrs = "" <;> simp [LoadConfig, hk, ht, hi]
  · intro now h hneg hn1 hn2 hprod hdiff
    have hexp : 3600000 * (-h) = -(3600000 * h) := by ring
    have hpneg : 3600000 * h < 0 := mul_neg_of_pos_of_neg (by norm_num) hneg
    have h1 : wrap64 (3600000 * h) = 3600000 * h := by
      refine wrap64_eq_self (by linarith) (by linarith)
    have h2 : wrap64 (now - 3600000 * h) = now - 3600000 * h := by
      refine wrap64_eq_self (by linarith) hdiff
    unfold computeCutoff
    rw [h1, h2]
    linarith
  · intro cutoff now p rest scan hlt hts
    have hb : p.date.ts < cutoff := lt_of_le_of_lt hts hlt
    exact ⟨by simp [selectForScan, hb], by simp [walkLoop, hb]⟩

/-- C10 (witness): the config ⟨"k", "-5", "t"⟩ passes validation, the
interval string "-5" parses to −5, the resulting cutoff at now = 0
exceeds now, and a list headed by a record with timestamp 0 yields an
empty selection and a clean (`Done`) cycle with no dispatch. -/
theorem negative_lookback_spec_witness :
    LoadConfig (some ⟨"k", "-5", "t"⟩) = .ok ⟨"k", "-5", "t"⟩ ∧
    (0 : Int) < computeCutoff 0 (-5) ∧
    selectForScan [pkgFresh] (computeCutoff 0 (-5)) = [] ∧
    walkLoop scanOK (computeCutoff 0 (-5)) [pkgFresh] = ([], none) := by
  have hload := (negative_lookback_spec.1 ⟨"k", "-5", "t"⟩ (by decide)
    (by decide)).mpr (by decide)
  have hcut := negative_lookback_spec.2.2.1 0 (-5) (by decide) (by decide)
    (by decide) (by decide) (by decide)
  have hwalk := negative_lookback_spec.2.2.2 (computeCutoff 0 (-5)) 0 pkgFresh
    [] scanOK hcut (by decide)
  exact ⟨hload, hcut, hwalk.1, hwalk.2⟩

end NpmWatch
